import Mathlib

/-!
Verification development for the Excel-RAG-System repository.

The Python source is shallowly embedded as Lean definitions:
* `cleanSqlQuery` embeds `RAGSystem._clean_sql_query` (src/rag_system.py),
  working on `List Char` to model Python string slicing and `str.strip`.
* `cleanTableName` embeds `ExcelDatabase._clean_table_name` (src/database.py);
  the `IndexError` raised on the empty string is modelled as `none`.
* `ExcelDatabase.add_sheet` embeds `ExcelDatabase.add_sheet`; the SQLite
  backend tables written by `DataFrame.to_sql` are modelled as an association
  list keyed by the derived identifier, and `execute_query` (which runs the
  external SQLite engine) is an oracle field.
* `getDatabaseSchema` embeds `RAGSystem._get_database_schema`; the pandas
  `Series.sample` call is modelled by `sampleValues`, which is deterministic
  (the claims depend only on the number of sampled values and on the
  `ValueError` raised when the requested size exceeds the population).
* `queryWithTrace` embeds `RAGSystem.query`, additionally recording the list
  of executed query texts and of prompts passed to `generate_sql`, so that
  "exactly one repair attempt" is expressible.
* `resolveApiKey` embeds the credential resolution shared by the three
  provider constructors in src/llm_providers.py (`api_key or env var`,
  with Python truthiness: `None` and `""` are both falsy).
* `answerPrompt` embeds the prompt construction of `generate_response`
  (identical in all three providers).
-/

namespace ExcelRag

/-! ## Query sanitizer: `RAGSystem._clean_sql_query` -/

/-- Python `str.strip` on the trailing side: drop trailing whitespace. -/
def trimR (s : List Char) : List Char :=
  ((s.reverse).dropWhile Char.isWhitespace).reverse

/-- Python `str.strip`: drop leading then trailing whitespace.
Whitespace is modelled by `Char.isWhitespace`. -/
def trimL (s : List Char) : List Char :=
  trimR (s.dropWhile Char.isWhitespace)

/-- The closing/plain fence marker three backticks. -/
def ticks : List Char := ['`', '`', '`']

/-- The opening fence marker with the sql language tag. -/
def tickSql : List Char := ['`', '`', '`', 's', 'q', 'l']

/-- The plain `sql` tag, as matched inside the tagged opening fence. -/
def sqlTag : List Char := ['s', 'q', 'l']

/-- The `startswith`-guarded removal of an opening fence in
`_clean_sql_query`: `sql_query[6:].strip()` for a \x60\x60\x60sql opening,
else `sql_query[3:].strip()` for a bare \x60\x60\x60 opening. -/
def dropFence (s : List Char) : List Char :=
  if tickSql.isPrefixOf s then trimL (s.drop 6)
  else if ticks.isPrefixOf s then trimL (s.drop 3)
  else s

/-- The `endswith`-guarded removal of a closing fence:
`sql_query[:-3].strip()`. -/
def dropCloseFence (s : List Char) : List Char :=
  if ticks.isSuffixOf s then trimL (s.take (s.length - 3)) else s

/-- `RAGSystem._clean_sql_query` on character lists: strip, remove an
opening fence (with special-cased `sql` tag), remove a closing fence. -/
def cleanSqlL (s : List Char) : List Char :=
  dropCloseFence (dropFence (trimL s))

/-- `RAGSystem._clean_sql_query` on strings. -/
def cleanSqlQuery (s : String) : String :=
  ⟨cleanSqlL s.data⟩

/-! ## Identifier derivation: `ExcelDatabase._clean_table_name` -/

/-- One character of `re.sub(r'[^a-zA-Z0-9]', '_', name)`. -/
def cleanChar (c : Char) : Char :=
  if c.isAlphanum then c else '_'

/-- `ExcelDatabase._clean_table_name` on character lists.  On the empty
name, `clean[0]` raises `IndexError` in Python; this is modelled as
`none`.  `clean[0].isdigit()` is modelled by `Char.isDigit`, which agrees
with Python on the output alphabet `[A-Za-z0-9_]` of the substitution. -/
def cleanTableNameL (s : List Char) : Option (List Char) :=
  match s.map cleanChar with
  | [] => none
  | c :: rest =>
    some (if c.isDigit then 's' :: 'h' :: 'e' :: 'e' :: 't' :: '_' :: c :: rest
          else c :: rest)

/-- `ExcelDatabase._clean_table_name` on strings. -/
def cleanTableName (s : String) : Option String :=
  (cleanTableNameL s.data).map (fun l => ⟨l⟩)

/-! ## Data model: DataFrames, sheets, the Excel database -/

/-- The pandas dtype classes distinguished by `_get_database_schema`
(`'int' in dtype_str`, `'float' in ...`, `'datetime' in ...`, else TEXT). -/
inductive Dtype
  | intD
  | floatD
  | datetimeD
  | objectD
deriving DecidableEq

/-- One column of a DataFrame: name, pandas dtype class, and cells
(`none` models NaN/null; cell payloads are rendered as strings). -/
structure Col where
  name : String
  dtype : Dtype
  cells : List (Option String)
deriving DecidableEq

/-- A pandas DataFrame, column-major.  `nrows` models `len(df)` (the index
length, which exists even with zero columns); each column's `cells` list
has length `nrows` in well-formed frames. -/
structure Df where
  nrows : Nat
  cols : List Col
deriving DecidableEq

/-- `list(df.columns)`. -/
def Df.colNames (df : Df) : List String := df.cols.map (fun c => c.name)

/-- `df.empty` in pandas: true iff any axis has length zero. -/
def Df.emptyB (df : Df) : Bool := decide (df.nrows = 0) || df.cols.isEmpty

/-- The per-sheet record stored by `ExcelDatabase.add_sheet`:
`{'clean_name': ..., 'columns': ..., 'data': ...}`. -/
structure SheetInfo where
  clean_name : String
  columns : List String
  data : Df
deriving DecidableEq

/-- Python dict update preserving insertion order: replace the value in
place when the key is present, else append the pair. -/
def assocSet {α : Type} : List (String × α) → String → α → List (String × α)
  | [], k, v => [(k, v)]
  | (k', v') :: t, k, v =>
    if k' = k then (k, v) :: t else (k', v') :: assocSet t k v

/-- Python dict lookup. -/
def assocGet {α : Type} : List (String × α) → String → Option α
  | [], _ => none
  | (k', v') :: t, k => if k' = k then some v' else assocGet t k

/-- `ExcelDatabase`: `sheets` models `self.sheets`, `tables` models the
tables materialized in the in-memory SQLite backend by `DataFrame.to_sql`
(keyed by the derived clean identifier), and `execQuery` is an oracle for
`pd.read_sql_query` against the external SQLite engine (an error value
models the raised exception, carrying its message). -/
structure ExcelDatabase where
  sheets : List (String × SheetInfo)
  tables : List (String × Df)
  execQuery : String → Except String Df

/-- `ExcelDatabase.add_sheet`: derive the clean identifier (raising
`IndexError` on the empty name, modelled as `.error`), record the sheet
under its display name, and write the frame into the backend under the
clean identifier with `if_exists='replace'`. -/
def ExcelDatabase.add_sheet (db : ExcelDatabase) (sheet_name : String)
    (df : Df) : Except String ExcelDatabase :=
  match cleanTableName sheet_name with
  | none => .error "IndexError: string index out of range"
  | some clean =>
    .ok { db with
      sheets := assocSet db.sheets sheet_name ⟨clean, df.colNames, df⟩
      tables := assocSet db.tables clean df }

/-! ## Schema snapshot: `RAGSystem._get_database_schema` -/

/-- The dtype-to-type mapping of `_get_database_schema`. -/
def dtypeName : Dtype → String
  | .intD => "INTEGER"
  | .floatD => "REAL"
  | .datetimeD => "DATETIME"
  | .objectD => "TEXT"

/-- One column entry of the snapshot. -/
structure ColSchema where
  name : String
  type : String
  sample_values : List String
deriving DecidableEq

/-- One table entry of the snapshot. -/
structure TableSchema where
  table_name : String
  columns : List ColSchema
  row_count : Nat
deriving DecidableEq

/-- The snapshot: display name to table entry, in insertion order. -/
abbrev Schema := List (String × TableSchema)

/-- Models `series.sample(n)` with pandas default `replace=False`: raises
`ValueError` when `n` exceeds the population.  The draw itself is random
in pandas; it is modelled deterministically as the first `n` values, since
the claims depend only on the count and on the error condition. -/
def sampleValues (xs : List String) (n : Nat) : Except String (List String) :=
  if n ≤ xs.length then .ok (xs.take n)
  else .error "ValueError: Cannot take a larger sample than population when replace = False"

/-- One column of the snapshot:
`df[col].dropna().sample(min(3, max(1, len(df)))).tolist()` with the
dtype mapping. -/
def colSchemaOf (nrows : Nat) (c : Col) : Except String ColSchema := do
  let sv ← sampleValues (c.cells.filterMap id) (min 3 (max 1 nrows))
  pure { name := c.name, type := dtypeName c.dtype, sample_values := sv }

/-- One table of the snapshot: columns plus `row_count = len(df)`. -/
def tableSchemaOf (info : SheetInfo) : Except String TableSchema := do
  let cols ← info.data.cols.mapM (colSchemaOf info.data.nrows)
  pure { table_name := info.clean_name, columns := cols
         row_count := info.data.nrows }

/-- `RAGSystem._get_database_schema`: built from `get_all_sheet_info()`
on every call, with no caching between calls. -/
def getDatabaseSchema (sheets : List (String × SheetInfo)) :
    Except String Schema :=
  sheets.mapM (fun p => do
    let t ← tableSchemaOf p.2
    pure (p.1, t))

/-! ## Providers: credential resolution and the answer prompt -/

/-- Credential resolution shared by the three provider constructors:
`if api_key is None: api_key = os.environ.get(VAR)` then
`if not api_key: raise ValueError(...)`.  Both `None` and the empty
string are falsy, so the result is `none` exactly when construction
raises. -/
def resolveApiKey (explicit envVal : Option String) : Option String :=
  match (match explicit with
         | some k => some k
         | none => envVal) with
  | some k => if k = "" then none else some k
  | none => none

/-- Whether provider construction succeeds, for a provider whose
designated environment variable is `envVar` and an environment `env`
(`none` models an unset variable). -/
def providerConstructs (explicit : Option String)
    (env : String → Option String) (envVar : String) : Bool :=
  (resolveApiKey explicit (env envVar)).isSome

/-- `str.join`-style concatenation with a separator, used to render
DataFrames line by line. -/
def joinStrings (sep : String) : List String → String
  | [] => ""
  | [x] => x
  | x :: y :: t => x ++ sep ++ joinStrings sep (y :: t)

/-- Rendering of one cell (`NaN` for nulls). -/
def cellStr : Option String → String
  | none => "NaN"
  | some s => s

/-- Row-major view of a column-major frame. -/
def rowsOf (df : Df) : List (List (Option String)) :=
  (List.range df.nrows).map (fun i => df.cols.map (fun c => c.cells.getD i none))

/-- Models `DataFrame.to_string()`: a header line followed by one line
per row (the exact intra-line layout is irrelevant to the claims; what
matters is that a non-empty frame renders with a newline in it). -/
def dfToString (df : Df) : String :=
  joinStrings "\n" (joinStrings " " df.colNames ::
    (rowsOf df).map (fun r => joinStrings " " (r.map cellStr)))

/-- The explicit no-results marker used by every provider. -/
def noResultsStr : String := "No results found"

/-- The `result_str` computed at the top of `generate_response` in each
provider: the marker when the result is `None` or `df.empty`, else the
rendering. -/
def resultStrOf (r : Option Df) : String :=
  match r with
  | none => noResultsStr
  | some df => if df.emptyB then noResultsStr else dfToString df

/-- The prompt template of `generate_response` (identical in the OpenAI,
Gemini and OpenRouter providers); the context dict is serialized upstream
of this model.  Apostrophes of the original text are elided. -/
def answerPrompt (query : String) (r : Option Df) (contextStr : String) :
    String :=
  "\n        You are an expert data analyst providing answers based on SQL query results.\n        \n        USER QUESTION:\n        "
    ++ query
    ++ "\n        \n        SQL QUERY RESULTS:\n        "
    ++ resultStrOf r
    ++ "\n        \n        CONTEXT:\n        "
    ++ contextStr
    ++ "\n        \n        Your task is to provide a clear, concise answer to the users question based on the SQL query results.\n        Explain the results in natural language, providing insights and context where appropriate.\n        If the results are empty or do not directly answer the question, acknowledge this and explain possible reasons why.\n        "

/-! ## The retrieval pipeline: `RAGSystem.query` -/

/-- The context dict built at step 6 of `RAGSystem.query`. -/
structure Context where
  original_query : String
  sql_query : String
  schema : Schema

/-- The pluggable LLM provider as the pipeline sees it: two oracle
operations (`generate_sql`, `generate_response`); their HTTP transport is
outside the model. -/
structure LLMProvider where
  generateSql : String → Schema → String
  generateResponse : String → Df → Context → String

/-- Models `str(database_schema)` as used inside `_fix_sql_query`.  The
exact dict rendering is irrelevant to the claims, which treat it as an
opaque deterministic serialization embedded into the repair prompt. -/
def schemaToString (s : Schema) : String :=
  joinStrings ", " (s.map (fun p => p.1 ++ ": " ++ p.2.table_name))

/-- The repair prompt of `RAGSystem._fix_sql_query`: embeds the failed
query text, the execution error message, and the schema serialization. -/
def fixSqlPrompt (sql err schemaStr : String) : String :=
  "\n        You are an expert in SQL. The following SQL query failed:\n        \n        ```sql\n        "
    ++ sql
    ++ "\n        ```\n        \n        Error message:\n        "
    ++ err
    ++ "\n        \n        DATABASE SCHEMA:\n        "
    ++ schemaStr
    ++ "\n        \n        Please fix the SQL query to make it work with the given schema. Return ONLY the fixed SQL query without any explanations or comments.\n        "

/-- The outcome of one `RAGSystem.query` call, instrumented with the list
of query texts passed to `execute_query` and the list of prompts passed
to `generate_sql`, in call order. -/
structure QueryOutcome where
  result : Except String (String × String)
  execCalls : List String
  genCalls : List String

/-- `RAGSystem.query`, instrumented.  Faithful control flow: build the
schema, generate and sanitize a query, execute it; on failure build the
repair prompt via `_fix_sql_query`, call `generate_sql` once more,
sanitize, execute once more; a second failure propagates.  On success
call `generate_response` with the results and the context dict. -/
def queryWithTrace (db : ExcelDatabase) (llm : LLMProvider) (nlq : String) :
    QueryOutcome :=
  match getDatabaseSchema db.sheets with
  | .error e => ⟨.error e, [], []⟩
  | .ok schema =>
    let sql := cleanSqlQuery (llm.generateSql nlq schema)
    match db.execQuery sql with
    | .ok results =>
      ⟨.ok (sql, llm.generateResponse nlq results ⟨nlq, sql, schema⟩),
       [sql], [nlq]⟩
    | .error e =>
      let p := fixSqlPrompt sql e (schemaToString schema)
      let fixed := cleanSqlQuery (llm.generateSql p schema)
      match db.execQuery fixed with
      | .ok results =>
        ⟨.ok (fixed, llm.generateResponse nlq results ⟨nlq, fixed, schema⟩),
         [sql, fixed], [nlq, p]⟩
      | .error e2 => ⟨.error e2, [sql, fixed], [nlq, p]⟩

/-- `RAGSystem.query` proper: the returned pair or the propagated error. -/
def ragQuery (db : ExcelDatabase) (llm : LLMProvider) (nlq : String) :
    Except String (String × String) :=
  (queryWithTrace db llm nlq).result

/-! ## Concrete fixtures for witnesses -/

/-- A stub provider whose first call (question `Q1`) yields a failing
query and whose repair call yields a working one. -/
def wLlm1 : LLMProvider :=
  ⟨fun q _ => if q = "Q1" then "BAD" else "GOOD", fun _ _ _ => "ans"⟩

/-- A store whose backend accepts exactly the query text `GOOD`. -/
def wDb1 : ExcelDatabase :=
  ⟨[], [], fun q => if q = "GOOD" then .ok ⟨0, []⟩ else .error "boom"⟩

/-- A stub provider producing `B1` then `B2`. -/
def wLlm2 : LLMProvider :=
  ⟨fun q _ => if q = "Q2" then "B1" else "B2", fun _ _ _ => "ans"⟩

/-- A store whose backend rejects every query, echoing it as the error. -/
def wDb2 : ExcelDatabase := ⟨[], [], fun q => .error q⟩

/-! ## Basic list lemmas used throughout -/

theorem dropWhile_dw (p : Char → Bool) (l : List Char) :
    (l.dropWhile p).dropWhile p = l.dropWhile p := by
  induction l with
  | nil => rfl
  | cons a t ih =>
    by_cases h : p a
    · simpa [List.dropWhile_cons, h] using ih
    · simp [List.dropWhile_cons, h]

theorem dropWhile_append_keep (p : Char → Bool) (l₁ l₂ : List Char)
    (h : l₂.dropWhile p = l₂) :
    (l₁ ++ l₂).dropWhile p = l₁.dropWhile p ++ l₂ := by
  induction l₁ with
  | nil => simpa using h
  | cons a t ih =>
    by_cases ha : p a
    · simpa [List.dropWhile_cons, ha] using ih
    · simp [List.dropWhile_cons, ha]

theorem dropWhile_backtick_cons (l : List Char) :
    List.dropWhile Char.isWhitespace ('`' :: l) = '`' :: l := by
  simp [List.dropWhile_cons]

theorem trimR_isPrefix (s : List Char) : trimR s <+: s := by
  have h := List.dropWhile_suffix (l := s.reverse) Char.isWhitespace
  have h2 : (s.reverse.dropWhile Char.isWhitespace).reverse <+: s.reverse.reverse :=
    List.reverse_prefix.mpr h
  simpa [trimR] using h2

theorem trimL_isInfixOf (s : List Char) : trimL s <:+: s := by
  have h1 : trimR (s.dropWhile Char.isWhitespace) <+: s.dropWhile Char.isWhitespace :=
    trimR_isPrefix _
  have h2 : s.dropWhile Char.isWhitespace <:+ s := List.dropWhile_suffix _
  exact (h1.isInfix).trans h2.isInfix

theorem trimR_dropWhile (s : List Char) :
    trimR ((s.dropWhile Char.isWhitespace)) = trimL s := rfl

theorem trimR_trimR (s : List Char) : trimR (trimR s) = trimR s := by
  unfold trimR
  rw [List.reverse_reverse, dropWhile_dw]

theorem dropWhile_trimR (s : List Char)
    (h : s.dropWhile Char.isWhitespace = s) :
    (trimR s).dropWhile Char.isWhitespace = trimR s := by
  rcases trimR_isPrefix s with ⟨t, ht⟩
  cases hs : trimR s with
  | nil => rfl
  | cons a l =>
    rw [hs] at ht
    cases s with
    | nil => simp at ht
    | cons b m =>
      have hab : a = b := by
        have := ht
        simp at this
        exact this.1
      have hb : Char.isWhitespace b = false := by
        by_cases hw : Char.isWhitespace b
        · rw [List.dropWhile_cons, if_pos hw] at h
          have hlen : (List.dropWhile Char.isWhitespace m).length = m.length + 1 := by
            rw [h]; simp
          have hle := (List.dropWhile_suffix (l := m) Char.isWhitespace).length_le
          omega
        · simpa using hw
      rw [List.dropWhile_cons, hab, hb]
      simp

theorem trimL_trimL (s : List Char) : trimL (trimL s) = trimL s := by
  unfold trimL
  rw [dropWhile_trimR _ (dropWhile_dw _ s), trimR_trimR]

/-- The output of `trimL` is already trimmed. -/
theorem trimL_trimmed (s : List Char) : trimL (trimL s) = trimL s :=
  trimL_trimL s

/-! ## Sanitizer behaviour lemmas -/

theorem tickSql_eq : tickSql = ticks ++ sqlTag := rfl

theorem trimL_append_ticks (l : List Char) :
    trimL (l ++ ticks) = l.dropWhile Char.isWhitespace ++ ticks := by
  unfold trimL
  rw [dropWhile_append_keep _ _ _ (by rfl)]
  unfold trimR
  rw [List.reverse_append]
  show (List.dropWhile Char.isWhitespace
    ('`' :: '`' :: '`' :: (List.dropWhile Char.isWhitespace l).reverse)).reverse = _
  rw [dropWhile_backtick_cons]
  simp [ticks]

theorem trimL_tick_head (x : List Char) :
    trimL (('`' :: x) ++ ticks) = ('`' :: x) ++ ticks := by
  rw [trimL_append_ticks, dropWhile_backtick_cons]

theorem dropFence_noop (s : List Char)
    (h6 : tickSql.isPrefixOf s = false) (h3 : ticks.isPrefixOf s = false) :
    dropFence s = s := by
  unfold dropFence
  rw [h6, h3]
  simp

theorem dropCloseFence_noop (s : List Char)
    (h : ticks.isSuffixOf s = false) : dropCloseFence s = s := by
  unfold dropCloseFence
  rw [h]
  simp

theorem isPrefixOf_false_of_prefix_false {l₁ l₂ : List Char}
    (h : ¬ l₁ <+: l₂) : l₁.isPrefixOf l₂ = false := by
  rw [← Bool.not_eq_true, List.isPrefixOf_iff_prefix]
  exact h

theorem prefix_of_isPrefixOf {l₁ l₂ : List Char}
    (h : l₁.isPrefixOf l₂ = true) : l₁ <+: l₂ :=
  List.isPrefixOf_iff_prefix.mp h

/-- Sanitizing `\x60\x60\x60sql <body> \x60\x60\x60` yields the trimmed body:
the `sql` tag is removed together with the opening fence. -/
theorem cleanSql_sql_fence (body : List Char) :
    cleanSqlL (tickSql ++ body ++ ticks) = trimL body := by
  have htrim : trimL (tickSql ++ body ++ ticks) = tickSql ++ body ++ ticks := by
    have := trimL_tick_head ('`' :: '`' :: 's' :: 'q' :: 'l' :: body)
    simpa [tickSql, List.append_assoc] using this
  have hpre : tickSql.isPrefixOf (tickSql ++ body ++ ticks) = true := by
    rw [List.isPrefixOf_iff_prefix, List.append_assoc]
    exact List.prefix_append tickSql (body ++ ticks)
  unfold cleanSqlL
  rw [htrim]
  unfold dropFence
  rw [if_pos hpre]
  have hdrop : (tickSql ++ body ++ ticks).drop 6 = body ++ ticks := by
    rw [List.append_assoc]
    show (tickSql ++ (body ++ ticks)).drop tickSql.length = body ++ ticks
    exact List.drop_left tickSql (body ++ ticks)
  rw [hdrop, trimL_append_ticks]
  unfold dropCloseFence
  have hsuf : ticks.isSuffixOf
      (body.dropWhile Char.isWhitespace ++ ticks) = true := by
    rw [List.isSuffixOf_iff_suffix]
    exact List.suffix_append _ ticks
  rw [if_pos hsuf]
  have hlen : (body.dropWhile Char.isWhitespace ++ ticks).length - 3 =
      (body.dropWhile Char.isWhitespace).length := by
    simp [ticks]
  rw [hlen]
  have htake : (body.dropWhile Char.isWhitespace ++ ticks).take
      (body.dropWhile Char.isWhitespace).length =
      body.dropWhile Char.isWhitespace := List.take_left _ _
  rw [htake]
  unfold trimL
  rw [dropWhile_dw]

/-- Sanitizing `\x60\x60\x60<body>\x60\x60\x60` when the body does not start
with the `sql` tag yields the trimmed body: only the bare three-backtick
markers are removed, so any other language tag remains inside the body. -/
theorem cleanSql_plain_fence (body : List Char)
    (h : sqlTag.isPrefixOf (body ++ ticks) = false) :
    cleanSqlL (ticks ++ body ++ ticks) = trimL body := by
  have htrim : trimL (ticks ++ body ++ ticks) = ticks ++ body ++ ticks := by
    have := trimL_tick_head ('`' :: '`' :: body)
    simpa [ticks, List.append_assoc] using this
  have hpre6 : tickSql.isPrefixOf (ticks ++ body ++ ticks) = false := by
    apply isPrefixOf_false_of_prefix_false
    rw [tickSql_eq, List.append_assoc, List.prefix_append_right_inj]
    intro hc
    rw [← Bool.not_eq_true, List.isPrefixOf_iff_prefix] at h
    exact h hc
  have hpre3 : ticks.isPrefixOf (ticks ++ body ++ ticks) = true := by
    rw [List.isPrefixOf_iff_prefix, List.append_assoc]
    exact List.prefix_append ticks (body ++ ticks)
  unfold cleanSqlL
  rw [htrim]
  unfold dropFence
  rw [hpre6, hpre3]
  simp only [Bool.false_eq_true, if_false, if_true]
  have hdrop : (ticks ++ body ++ ticks).drop 3 = body ++ ticks := by
    rw [List.append_assoc]
    show (ticks ++ (body ++ ticks)).drop ticks.length = body ++ ticks
    exact List.drop_left ticks (body ++ ticks)
  rw [hdrop, trimL_append_ticks]
  unfold dropCloseFence
  have hsuf : ticks.isSuffixOf
      (body.dropWhile Char.isWhitespace ++ ticks) = true := by
    rw [List.isSuffixOf_iff_suffix]
    exact List.suffix_append _ ticks
  rw [if_pos hsuf]
  have hlen : (body.dropWhile Char.isWhitespace ++ ticks).length - 3 =
      (body.dropWhile Char.isWhitespace).length := by
    simp [ticks]
  rw [hlen, List.take_left]
  unfold trimL
  rw [dropWhile_dw]

/-- On trimmed input with no leading or trailing fence marker the sanitizer
changes nothing. -/
theorem cleanSql_noFence (s : List Char) (h1 : trimL s = s)
    (h2 : ticks.isPrefixOf s = false) (h3 : ticks.isSuffixOf s = false) :
    cleanSqlL s = s := by
  have h6 : tickSql.isPrefixOf s = false := by
    apply isPrefixOf_false_of_prefix_false
    intro hc
    have : ticks <+: s := (List.prefix_append ticks sqlTag).trans (tickSql_eq ▸ hc)
    rw [← List.isPrefixOf_iff_prefix] at this
    simp [h2] at this
  unfold cleanSqlL
  rw [h1, dropFence_noop s h6 h2, dropCloseFence_noop s h3]

/-! ## Sanitizer: trimmed output, substring property, idempotence -/

theorem trimL_dropFence (s : List Char) (h : trimL s = s) :
    trimL (dropFence s) = dropFence s := by
  unfold dropFence
  split
  · exact trimL_trimL _
  · split
    · exact trimL_trimL _
    · exact h

theorem trimL_dropCloseFence (s : List Char) (h : trimL s = s) :
    trimL (dropCloseFence s) = dropCloseFence s := by
  unfold dropCloseFence
  split
  · exact trimL_trimL _
  · exact h

/-- The sanitizer output carries no surrounding whitespace. -/
theorem trimL_cleanSqlL (s : List Char) :
    trimL (cleanSqlL s) = cleanSqlL s := by
  unfold cleanSqlL
  exact trimL_dropCloseFence _ (trimL_dropFence _ (trimL_trimL s))

theorem dropFence_infixOf (s : List Char) : dropFence s <:+: s := by
  unfold dropFence
  split
  · exact (trimL_isInfixOf _).trans (List.drop_suffix 6 s).isInfix
  · split
    · exact (trimL_isInfixOf _).trans (List.drop_suffix 3 s).isInfix
    · exact List.infix_rfl

theorem dropCloseFence_infixOf (s : List Char) : dropCloseFence s <:+: s := by
  unfold dropCloseFence
  split
  · exact (trimL_isInfixOf _).trans (List.take_prefix _ s).isInfix
  · exact List.infix_rfl

theorem cleanSqlL_infixOf (s : List Char) : cleanSqlL s <:+: s :=
  ((dropCloseFence_infixOf _).trans (dropFence_infixOf _)).trans
    (trimL_isInfixOf s)

/-- Fence-free trimmed residue: when the trimmed input neither starts nor
ends with a fence marker, the sanitizer only trims. -/
theorem cleanSql_trim_only (s : List Char)
    (h2 : ticks.isPrefixOf (trimL s) = false)
    (h3 : ticks.isSuffixOf (trimL s) = false) :
    cleanSqlL s = trimL s := by
  have h6 : tickSql.isPrefixOf (trimL s) = false := by
    apply isPrefixOf_false_of_prefix_false
    intro hc
    have : ticks <+: trimL s :=
      (List.prefix_append ticks sqlTag).trans (tickSql_eq ▸ hc)
    rw [← List.isPrefixOf_iff_prefix] at this
    simp [h2] at this
  unfold cleanSqlL
  rw [dropFence_noop _ h6 h2, dropCloseFence_noop _ h3]

/-- Claim C5 (amended): the sanitizer trims surrounding whitespace; on a
trimmed input carrying no fence markers at either end it only trims; a
fenced input tagged exactly `sql` loses the whole opening marker including
the tag; a fenced input with any other prefix loses only the bare
three-backtick markers, so a different language tag remains in the body. -/
theorem claim_C5_sanitizer_fences :
    (∀ s : List Char, ticks.isPrefixOf (trimL s) = false →
        ticks.isSuffixOf (trimL s) = false → cleanSqlL s = trimL s) ∧
    (∀ body : List Char,
        cleanSqlL (tickSql ++ body ++ ticks) = trimL body) ∧
    (∀ body : List Char, sqlTag.isPrefixOf (body ++ ticks) = false →
        cleanSqlL (ticks ++ body ++ ticks) = trimL body) :=
  ⟨cleanSql_trim_only, cleanSql_sql_fence, cleanSql_plain_fence⟩

/-- Claim C5 counterexample: with a `python` language tag the sanitizer
leaves the tag in the output instead of removing exactly the fence
wrapping; removing exactly the wrapping would give `SELECT 1`. -/
theorem claim_C5_counterexample :
    cleanSqlQuery "```python\nSELECT 1\n```" = "python\nSELECT 1" ∧
    ("python\nSELECT 1" : String) ≠ "SELECT 1" := by
  constructor
  · rfl
  · decide

theorem claim_C5_witness :
    cleanSqlL ("SELECT 1").data = trimL ("SELECT 1").data ∧
    cleanSqlL (tickSql ++ ("\nSELECT 1\n").data ++ ticks) =
      trimL ("\nSELECT 1\n").data ∧
    cleanSqlL (ticks ++ ("python\nSELECT 1\n").data ++ ticks) =
      trimL ("python\nSELECT 1\n").data :=
  ⟨claim_C5_sanitizer_fences.1 _ (by decide) (by decide),
   claim_C5_sanitizer_fences.2.1 _,
   claim_C5_sanitizer_fences.2.2 _ (by decide)⟩

/-- Claim C10: sanitization only removes characters from the ends: the
output is a contiguous substring of the input and never longer. -/
theorem claim_C10_sanitizer_substring (s : String) :
    (cleanSqlQuery s).data <:+: s.data ∧
    (cleanSqlQuery s).length ≤ s.length := by
  refine ⟨cleanSqlL_infixOf s.data, ?_⟩
  show (cleanSqlL s.data).length ≤ s.data.length
  exact (cleanSqlL_infixOf s.data).length_le

/-- Claim C6 counterexample: the sanitizer is not idempotent; on
six backticks followed by `sql foo` the first pass exposes a fresh
`sql`-tagged opening fence which the second pass strips further. -/
theorem claim_C6_counterexample :
    cleanSqlQuery (cleanSqlQuery "``````sql foo") ≠
      cleanSqlQuery "``````sql foo" := by
  decide

/-- Claim C6 (amended): the sanitizer is idempotent on every input whose
sanitized form does not itself begin or end with a fence marker; in
general a second application can strip further markers. -/
theorem claim_C6_idempotent (s : String)
    (h2 : ticks.isPrefixOf (cleanSqlQuery s).data = false)
    (h3 : ticks.isSuffixOf (cleanSqlQuery s).data = false) :
    cleanSqlQuery (cleanSqlQuery s) = cleanSqlQuery s := by
  have h1 : trimL (cleanSqlL s.data) = cleanSqlL s.data := trimL_cleanSqlL _
  have h2' : ticks.isPrefixOf (trimL (cleanSqlL s.data)) = false := by
    rw [h1]; exact h2
  have h3' : ticks.isSuffixOf (trimL (cleanSqlL s.data)) = false := by
    rw [h1]; exact h3
  have hd : cleanSqlL (cleanSqlL s.data) = cleanSqlL s.data := by
    rw [cleanSql_trim_only _ h2' h3', h1]
  show (⟨cleanSqlL (cleanSqlL s.data)⟩ : String) = ⟨cleanSqlL s.data⟩
  rw [hd]

theorem claim_C6_witness :
    cleanSqlQuery (cleanSqlQuery "```sql\nSELECT 1\n```") =
      cleanSqlQuery "```sql\nSELECT 1\n```" :=
  claim_C6_idempotent "```sql\nSELECT 1\n```" (by decide) (by decide)

/-! ## Identifier derivation: determinism, idempotence, shape -/

theorem cleanChar_cases (c : Char) :
    (cleanChar c).isAlphanum = true ∨ cleanChar c = '_' := by
  unfold cleanChar
  split
  · left; assumption
  · right; rfl

theorem cleanChar_fixed (c : Char)
    (h : c.isAlphanum = true ∨ c = '_') : cleanChar c = c := by
  rcases h with h | h
  · unfold cleanChar; rw [if_pos h]
  · subst h; rfl

theorem map_cleanChar_fixed (l : List Char)
    (h : ∀ c ∈ l, c.isAlphanum = true ∨ c = '_') :
    l.map cleanChar = l := by
  induction l with
  | nil => rfl
  | cons a t ih =>
    have ha := h a (List.mem_cons_self a t)
    have ht : ∀ c ∈ t, c.isAlphanum = true ∨ c = '_' :=
      fun c hc => h c (List.mem_cons_of_mem a hc)
    simp [cleanChar_fixed a ha, ih ht]

/-- The characters the prefix `sheet_` contributes are alphanumeric or
underscore. -/
theorem sheet_chars :
    ∀ c ∈ ['s', 'h', 'e', 'e', 't', '_'], c.isAlphanum = true ∨ c = '_' := by
  decide

/-- Full characterization of `_clean_table_name` on non-empty names:
it succeeds, the output is the substitution image with the `sheet_`
prefix exactly when that image leads with a digit, and the output is
non-empty, not digit-leading, and a fixed point of re-derivation. -/
theorem cleanTableNameL_spec (name : List Char) (h : name ≠ []) :
    ∃ out : List Char,
      cleanTableNameL name = some out ∧
      out = (if (name.map cleanChar).headI.isDigit
             then 's' :: 'h' :: 'e' :: 'e' :: 't' :: '_' :: name.map cleanChar
             else name.map cleanChar) ∧
      out ≠ [] ∧
      out.headI.isDigit = false ∧
      cleanTableNameL out = some out := by
  cases hm : name.map cleanChar with
  | nil =>
    exact absurd (List.map_eq_nil_iff.mp hm) h
  | cons c rest =>
    have hmem : ∀ x ∈ c :: rest, x.isAlphanum = true ∨ x = '_' := by
      intro x hx
      rw [← hm] at hx
      rcases List.mem_map.mp hx with ⟨a, -, rfl⟩
      exact cleanChar_cases a
    by_cases hd : c.isDigit = true
    · refine ⟨'s' :: 'h' :: 'e' :: 'e' :: 't' :: '_' :: c :: rest,
        ?_, ?_, ?_, ?_, ?_⟩
      · unfold cleanTableNameL
        rw [hm]
        simp [hd]
      · simp [List.headI, hd]
      · simp
      · simp [List.headI]
      · unfold cleanTableNameL
        have hfix : ('s' :: 'h' :: 'e' :: 'e' :: 't' :: '_' :: c ::
            rest).map cleanChar =
            's' :: 'h' :: 'e' :: 'e' :: 't' :: '_' :: c :: rest := by
          apply map_cleanChar_fixed
          intro x hx
          simp only [List.mem_cons] at hx
          rcases hx with rfl | rfl | rfl | rfl | rfl | rfl | hx
          · exact Or.inl (by decide)
          · exact Or.inl (by decide)
          · exact Or.inl (by decide)
          · exact Or.inl (by decide)
          · exact Or.inl (by decide)
          · exact Or.inr rfl
          · exact hmem x (by simp [hx])
        rw [hfix]
        simp
    · refine ⟨c :: rest, ?_, ?_, ?_, ?_, ?_⟩
      · unfold cleanTableNameL
        rw [hm]
        simp [hd]
      · simp [List.headI, hd]
      · simp
      · simp [List.headI, hd]
      · unfold cleanTableNameL
        have hfix : (c :: rest).map cleanChar = c :: rest :=
          map_cleanChar_fixed _ hmem
        rw [hfix]
        simp [hd]

/-- Claim C4 (amended): for every non-empty display name the derivation
replaces each character outside `[A-Za-z0-9]` with an underscore, prepends
the fixed `sheet_` prefix when the first character is a digit, and yields
an identifier that is non-empty, never digit-leading, and a fixed point of
re-derivation; determinism is immediate since the embedding is a pure
function of the name. -/
theorem claim_C4_identifier (name : List Char) (h : name ≠ []) :
    ∃ out : List Char,
      cleanTableNameL name = some out ∧
      out = (if (name.map cleanChar).headI.isDigit
             then 's' :: 'h' :: 'e' :: 'e' :: 't' :: '_' :: name.map cleanChar
             else name.map cleanChar) ∧
      out ≠ [] ∧
      out.headI.isDigit = false ∧
      cleanTableNameL out = some out :=
  cleanTableNameL_spec name h

/-- Claim C4 counterexample: on the empty display name the code raises
`IndexError` (`clean[0]` on an empty string), so no identifier at all is
derived, contradicting the claim quantified over all strings. -/
theorem claim_C4_counterexample : cleanTableName "" = none := rfl

theorem claim_C4_witness :
    cleanTableNameL ('1' :: 'a' :: ' ' :: 'b' :: []) =
      some ('s' :: 'h' :: 'e' :: 'e' :: 't' :: '_' :: '1' :: 'a' :: '_'
            :: 'b' :: []) := by
  obtain ⟨out, h1, h2, -, -, -⟩ :=
    claim_C4_identifier ('1' :: 'a' :: ' ' :: 'b' :: []) (by decide)
  rw [h2] at h1
  rw [h1]
  decide

/-! ## The store: `add_sheet` registration and backend overwrite -/

theorem assocGet_set_same {α : Type} (l : List (String × α)) (k : String)
    (v : α) : assocGet (assocSet l k v) k = some v := by
  induction l with
  | nil => simp [assocSet, assocGet]
  | cons p t ih =>
    rcases p with ⟨k0, v0⟩
    by_cases h : k0 = k
    · simp [assocSet, assocGet, h]
    · simp [assocSet, assocGet, h, ih]

theorem assocGet_set_other {α : Type} (l : List (String × α))
    (k k' : String) (v : α) (h : k' ≠ k) :
    assocGet (assocSet l k v) k' = assocGet l k' := by
  have hk : ¬ k = k' := fun hc => h hc.symm
  induction l with
  | nil => simp [assocSet, assocGet, hk]
  | cons p t ih =>
    rcases p with ⟨k0, v0⟩
    by_cases h0 : k0 = k
    · subst h0
      simp [assocSet, assocGet, hk]
    · simp [assocSet, assocGet, h0, ih]

theorem cleanTableName_isSome (name : String) (h : name ≠ "") :
    ∃ clean : String, cleanTableName name = some clean := by
  have hd : name.data ≠ [] := by
    intro hc
    apply h
    cases name
    simp at hc
    rw [hc]
  obtain ⟨out, h1, -⟩ := cleanTableNameL_spec name.data hd
  exact ⟨⟨out⟩, by simp [cleanTableName, h1]⟩

/-- Claim C9 (amended): for every non-empty display name, `add_sheet`
registers (or fully replaces) the sheet record under the display name,
stores the derived identifier together with the column list and the data,
and writes the frame into the backend table keyed solely by the derived
identifier, overwriting whatever was there before — including a table
whose identifier came from a different display name, since no cross-name
uniqueness check exists.  All other keys are untouched. -/
theorem claim_C9_addTable (db : ExcelDatabase) (name : String) (df : Df)
    (h : name ≠ "") :
    ∃ (clean : String) (db2 : ExcelDatabase),
      cleanTableName name = some clean ∧
      db.add_sheet name df = .ok db2 ∧
      assocGet db2.sheets name = some ⟨clean, df.colNames, df⟩ ∧
      assocGet db2.tables clean = some df ∧
      (∀ k, k ≠ name → assocGet db2.sheets k = assocGet db.sheets k) ∧
      (∀ k, k ≠ clean → assocGet db2.tables k = assocGet db.tables k) ∧
      db2.execQuery = db.execQuery := by
  obtain ⟨clean, hc⟩ := cleanTableName_isSome name h
  refine ⟨clean,
    { db with
      sheets := assocSet db.sheets name ⟨clean, df.colNames, df⟩
      tables := assocSet db.tables clean df }, hc, ?_, ?_, ?_, ?_, ?_, rfl⟩
  · unfold ExcelDatabase.add_sheet
    rw [hc]
  · exact assocGet_set_same _ _ _
  · exact assocGet_set_same _ _ _
  · exact fun k hk => assocGet_set_other _ _ _ _ hk
  · exact fun k hk => assocGet_set_other _ _ _ _ hk

/-- Claim C9 counterexample: with the empty display name, `add_sheet`
raises `IndexError` from the identifier derivation instead of registering
anything. -/
theorem claim_C9_counterexample :
    ExcelDatabase.add_sheet ⟨[], [], fun q => .error q⟩ "" ⟨0, []⟩ =
      .error "IndexError: string index out of range" := rfl

theorem claim_C9_witness :
    ∃ (clean : String) (db2 : ExcelDatabase),
      cleanTableName "My Sheet" = some clean ∧
      ExcelDatabase.add_sheet ⟨[], [], fun q => .error q⟩ "My Sheet"
        ⟨1, [⟨"a", .intD, [some "1"]⟩]⟩ = .ok db2 ∧
      assocGet db2.sheets "My Sheet" =
        some ⟨clean, ["a"], ⟨1, [⟨"a", .intD, [some "1"]⟩]⟩⟩ := by
  obtain ⟨clean, db2, h1, h2, h3, -⟩ :=
    claim_C9_addTable ⟨[], [], fun q => .error q⟩ "My Sheet"
      ⟨1, [⟨"a", .intD, [some "1"]⟩]⟩ (by decide)
  exact ⟨clean, db2, h1, h2, h3⟩

/-! ## Schema snapshot: the sampling call crashes on sparse data -/

/-- Claim C3 evidence of the code bug: `_get_database_schema` computes the
sample size as `min(3, max(1, len(df)))` from the frame's row count, not
from the column's non-null count, and `Series.sample` raises `ValueError`
when asked for more elements than the population holds.  A zero-row table
(sample size forced to 1 against an empty population) and a three-row
table whose column holds a single non-null value (sample size 3 against
population 1) both make schema construction raise instead of producing a
snapshot. -/
theorem claim_C3_schema_sampling_error :
    getDatabaseSchema [("T", ⟨"T", ["a"], ⟨0, [⟨"a", .objectD, []⟩]⟩⟩)] =
      .error "ValueError: Cannot take a larger sample than population when replace = False" ∧
    getDatabaseSchema
        [("U", ⟨"U", ["b"], ⟨3, [⟨"b", .intD, [some "1", none, none]⟩]⟩⟩)] =
      .error "ValueError: Cannot take a larger sample than population when replace = False" := by
  constructor
  · rfl
  · rfl

/-! ## Providers: the no-results marker and the answer prompt -/

theorem joinStrings_cons_cons (sep x y : String) (t : List String) :
    joinStrings sep (x :: y :: t) = x ++ sep ++ joinStrings sep (y :: t) :=
  rfl

theorem newline_mem_dfToString (df : Df) (h : df.nrows ≠ 0) :
    '\n' ∈ (dfToString df).data := by
  have hlen : (rowsOf df).length = df.nrows := by simp [rowsOf]
  cases hr : (rowsOf df).map (fun r => joinStrings " " (r.map cellStr)) with
  | nil =>
    rw [List.map_eq_nil_iff] at hr
    rw [hr] at hlen
    simp at hlen
    exact absurd hlen.symm h
  | cons r t =>
    unfold dfToString
    rw [hr, joinStrings_cons_cons]
    have hmem : '\n' ∈ ("\n" : String).data := by decide
    simp only [String.data_append, List.mem_append]
    exact Or.inl (Or.inr hmem)

theorem dfToString_ne_marker (df : Df) (h : df.nrows ≠ 0) :
    dfToString df ≠ noResultsStr := by
  intro he
  have h1 := newline_mem_dfToString df h
  rw [he] at h1
  revert h1
  decide

theorem infix_extend_left {x X : List Char} (h : x <:+: X) (L : List Char) :
    x <:+: L ++ X :=
  h.trans (List.suffix_append L X).isInfix

theorem strInfix_self_right (x z : String) (h : x.data <:+: z.data)
    (y : String) : x.data <:+: (y ++ z).data := by
  rw [String.data_append]
  exact infix_extend_left h y.data

theorem strInfix_self_left (x y : String) (h : x.data <:+: y.data)
    (z : String) : x.data <:+: (y ++ z).data := by
  rw [String.data_append]
  exact h.trans (List.prefix_append y.data z.data).isInfix

/-- Claim C7: the `result_str` embedded into the `generate_response`
prompt is the explicit marker exactly for absent or zero-row results; for
a non-empty result (SQL results always carry at least one column) it is
the frame's rendering, which is never the marker; and the prompt embeds
`result_str` verbatim. -/
theorem claim_C7_marker (q ctx : String) (r : Option Df) :
    ((r = none ∨ (∃ df, r = some df ∧ df.nrows = 0)) →
      resultStrOf r = noResultsStr) ∧
    (∀ df, r = some df → df.nrows ≠ 0 → df.cols ≠ [] →
      resultStrOf r = dfToString df ∧ dfToString df ≠ noResultsStr) ∧
    (resultStrOf r).data <:+: (answerPrompt q r ctx).data := by
  refine ⟨?_, ?_, ?_⟩
  · rintro (rfl | ⟨df, rfl, h0⟩)
    · rfl
    · simp [resultStrOf, Df.emptyB, h0]
  · rintro df rfl hn hc
    have he : df.emptyB = false := by
      simp [Df.emptyB, hn, List.isEmpty_iff, hc]
    refine ⟨by simp [resultStrOf, he], dfToString_ne_marker df hn⟩
  · unfold answerPrompt
    exact strInfix_self_left _ _ (strInfix_self_left _ _ (strInfix_self_left
      _ _ (strInfix_self_right _ _ List.infix_rfl _) _) _) _

theorem claim_C7_witness :
    resultStrOf (some ⟨0, [⟨"a", .objectD, []⟩]⟩) = noResultsStr ∧
    resultStrOf (some ⟨1, [⟨"a", .objectD, [some "v"]⟩]⟩) =
      dfToString ⟨1, [⟨"a", .objectD, [some "v"]⟩]⟩ ∧
    dfToString ⟨1, [⟨"a", .objectD, [some "v"]⟩]⟩ ≠ noResultsStr := by
  refine ⟨?_, ?_, ?_⟩
  · exact (claim_C7_marker "q" "c" _).1 (Or.inr ⟨_, rfl, rfl⟩)
  · exact ((claim_C7_marker "q" "c" _).2.1 _ rfl (by decide) (by decide)).1
  · exact ((claim_C7_marker "q" "c" _).2.1 _ rfl (by decide) (by decide)).2

/-! ## Providers: credential resolution -/

/-- Claim C8 (amended): construction fails exactly when the explicit
credential is the empty string, or none is given and the designated
environment variable is unset or empty; the environment is consulted only
when no explicit credential is supplied, so an explicit empty string
fails construction even when the variable holds a non-empty value. -/
theorem claim_C8_credentials (explicit : Option String)
    (env : String → Option String) (envVar : String) :
    (providerConstructs explicit env envVar = false ↔
      explicit = some "" ∨
        (explicit = none ∧ (env envVar = none ∨ env envVar = some ""))) ∧
    (∀ k, explicit = some k → ∀ env2 : String → Option String,
      providerConstructs explicit env2 envVar =
        providerConstructs explicit env envVar) := by
  constructor
  · unfold providerConstructs resolveApiKey
    cases explicit with
    | some k =>
      by_cases hk : k = ""
      · subst hk; simp
      · simp [hk]
    | none =>
      cases henv : env envVar with
      | none => simp
      | some v =>
        by_cases hv : v = ""
        · subst hv; simp
        · simp [hv]
  · rintro k rfl env2
    rfl

/-- Claim C8 counterexample: an explicitly supplied empty credential
blocks the environment fallback, so construction fails even though the
designated variable yields a non-empty credential — the claim says
construction succeeds whenever either source yields one. -/
theorem claim_C8_counterexample :
    providerConstructs (some "")
      (fun v => if v = "OPENAI_API_KEY" then some "sk-test" else none)
      "OPENAI_API_KEY" = false ∧
    (fun v => if v = "OPENAI_API_KEY" then some "sk-test" else none)
      "OPENAI_API_KEY" = some "sk-test" ∧
    ("sk-test" : String) ≠ "" := by
  refine ⟨rfl, rfl, by decide⟩

theorem claim_C8_witness :
    providerConstructs none (fun _ => none) "GEMINI_API_KEY" = false ∧
    providerConstructs (some "key")
      (fun _ => none) "OPENROUTER_API_KEY" =
      providerConstructs (some "key")
        (fun _ => some "other") "OPENROUTER_API_KEY" := by
  constructor
  · exact (claim_C8_credentials none (fun _ => none) "GEMINI_API_KEY").1.mpr
      (Or.inr ⟨rfl, Or.inl rfl⟩)
  · exact (claim_C8_credentials (some "key") (fun _ => some "other")
      "OPENROUTER_API_KEY").2 "key" rfl (fun _ => none)

/-! ## The pipeline: single repair cycle -/

theorem sql_infixOf_fixSqlPrompt (a b c : String) :
    a.data <:+: (fixSqlPrompt a b c).data := by
  unfold fixSqlPrompt
  exact strInfix_self_left _ _ (strInfix_self_left _ _ (strInfix_self_left
    _ _ (strInfix_self_left _ _ (strInfix_self_left _ _ (strInfix_self_right
    _ _ List.infix_rfl _) _) _) _) _) _

theorem err_infixOf_fixSqlPrompt (a b c : String) :
    b.data <:+: (fixSqlPrompt a b c).data := by
  unfold fixSqlPrompt
  exact strInfix_self_left _ _ (strInfix_self_left _ _ (strInfix_self_left
    _ _ (strInfix_self_right _ _ List.infix_rfl _) _) _) _

theorem schema_infixOf_fixSqlPrompt (a b c : String) :
    c.data <:+: (fixSqlPrompt a b c).data := by
  unfold fixSqlPrompt
  exact strInfix_self_left _ _ (strInfix_self_right _ _ List.infix_rfl _) _

/-- Claim C1: when the first sanitized query fails to execute, the
pipeline makes exactly one repair attempt — a second `generate_sql` call
(the same operation used for generation) on the repair prompt, which
embeds the failed query text, the error message, and the schema
serialization — sanitizes and executes its output as the second and last
execution; and when that execution succeeds the returned pair carries the
sanitized repaired text, not the original. -/
theorem claim_C1_repair (db : ExcelDatabase) (llm : LLMProvider)
    (nlq : String) (schema : Schema) (e sql p fixed : String)
    (hs : getDatabaseSchema db.sheets = .ok schema)
    (hsql : sql = cleanSqlQuery (llm.generateSql nlq schema))
    (he : db.execQuery sql = .error e)
    (hp : p = fixSqlPrompt sql e (schemaToString schema))
    (hfix : fixed = cleanSqlQuery (llm.generateSql p schema)) :
    (queryWithTrace db llm nlq).genCalls = [nlq, p] ∧
    (queryWithTrace db llm nlq).execCalls = [sql, fixed] ∧
    sql.data <:+: p.data ∧ e.data <:+: p.data ∧
    (schemaToString schema).data <:+: p.data ∧
    (∀ res : Df, db.execQuery fixed = .ok res →
      ragQuery db llm nlq =
        .ok (fixed, llm.generateResponse nlq res ⟨nlq, fixed, schema⟩)) := by
  subst hsql
  subst hp
  subst hfix
  refine ⟨?_, ?_, sql_infixOf_fixSqlPrompt _ _ _,
    err_infixOf_fixSqlPrompt _ _ _, schema_infixOf_fixSqlPrompt _ _ _, ?_⟩
  · cases hr2 : db.execQuery (cleanSqlQuery (llm.generateSql
        (fixSqlPrompt (cleanSqlQuery (llm.generateSql nlq schema)) e
          (schemaToString schema)) schema)) with
    | ok res => simp only [queryWithTrace, hs, he, hr2]
    | error e2 => simp only [queryWithTrace, hs, he, hr2]
  · cases hr2 : db.execQuery (cleanSqlQuery (llm.generateSql
        (fixSqlPrompt (cleanSqlQuery (llm.generateSql nlq schema)) e
          (schemaToString schema)) schema)) with
    | ok res => simp only [queryWithTrace, hs, he, hr2]
    | error e2 => simp only [queryWithTrace, hs, he, hr2]
  · intro res hres
    unfold ragQuery
    simp only [queryWithTrace, hs, he, hres]

theorem claim_C1_witness :
    (queryWithTrace wDb1 wLlm1 "Q1").execCalls = ["BAD", "GOOD"] ∧
    (queryWithTrace wDb1 wLlm1 "Q1").genCalls.length = 2 ∧
    ragQuery wDb1 wLlm1 "Q1" = .ok ("GOOD", "ans") := by
  obtain ⟨hgen, hexec, -, -, -, hrun⟩ :=
    claim_C1_repair wDb1 wLlm1 "Q1" [] "boom" "BAD"
      (fixSqlPrompt "BAD" "boom" (schemaToString [])) "GOOD"
      rfl (by decide) rfl rfl (by decide)
  refine ⟨hexec, ?_, ?_⟩
  · rw [hgen]
    rfl
  · exact hrun ⟨0, []⟩ rfl

/-- Claim C2: when the repaired query also fails to execute, the pipeline
propagates the second failure's diagnostic to its caller after exactly
two executions, and never returns a success pair in place of the error. -/
theorem claim_C2_double_failure (db : ExcelDatabase) (llm : LLMProvider)
    (nlq : String) (schema : Schema) (e e2 sql p fixed : String)
    (hs : getDatabaseSchema db.sheets = .ok schema)
    (hsql : sql = cleanSqlQuery (llm.generateSql nlq schema))
    (he : db.execQuery sql = .error e)
    (hp : p = fixSqlPrompt sql e (schemaToString schema))
    (hfix : fixed = cleanSqlQuery (llm.generateSql p schema))
    (he2 : db.execQuery fixed = .error e2) :
    ragQuery db llm nlq = .error e2 ∧
    (queryWithTrace db llm nlq).execCalls = [sql, fixed] ∧
    (∀ ans : String × String, ragQuery db llm nlq ≠ .ok ans) := by
  subst hsql
  subst hp
  subst hfix
  have hq : ragQuery db llm nlq = .error e2 := by
    unfold ragQuery
    simp only [queryWithTrace, hs, he, he2]
  refine ⟨hq, ?_, ?_⟩
  · simp only [queryWithTrace, hs, he, he2]
  · intro ans hc
    rw [hq] at hc
    exact Except.noConfusion hc

theorem claim_C2_witness :
    ragQuery wDb2 wLlm2 "Q2" = .error "B2" ∧
    (queryWithTrace wDb2 wLlm2 "Q2").execCalls = ["B1", "B2"] := by
  obtain ⟨h1, h2, -⟩ :=
    claim_C2_double_failure wDb2 wLlm2 "Q2" [] "B1" "B2" "B1"
      (fixSqlPrompt "B1" "B1" (schemaToString [])) "B2"
      rfl (by decide) rfl rfl (by decide) rfl
  exact ⟨h1, h2⟩
